import Mathlib

/-!
Shallow embedding of `vic.js` (an editor wrapper adding RCS version-control
semantics to ad-hoc file editing) and proofs about its checkout/checkin
session engine.

Strings manipulated by the JavaScript code are modelled as `List Char`;
external effects (filesystem existence checks, backend exit codes, user
answers at prompts, the summarizer process) are passed in explicitly as
parameters, so every definition is executable and mirrors one piece of the
source program.
-/

namespace Vic

/-! ### JavaScript string primitives -/

/-- Whitespace characters stripped by JavaScript `String.prototype.trim`
(the common ASCII ones produced by the programs involved). -/
def jsWhitespace (c : Char) : Bool :=
  c = ' ' || c = '\t' || c = '\n' || c = '\r' || c = '\x0b' || c = '\x0c'

/-- JavaScript `s.trim()` on a character list. -/
def jsTrim (cs : List Char) : List Char :=
  ((cs.dropWhile jsWhitespace).reverse.dropWhile jsWhitespace).reverse

/-- Substring test (used to model `grep PATTERN` matching a line). -/
def containsSub (pat l : List Char) : Bool :=
  l.tails.any (fun t => pat.isPrefixOf t)

/-! ### CLI ceiling check (`main`, vic.js lines 789-794 and 838-843)

`maxFiles = parseInt(args.shift(), 10) || 3`: the parsed `-n` value is
modelled as `Option Int`, `none` standing for an absent flag or an
unparsable value (`parseInt` returning `NaN`). -/

/-- JavaScript `v || 3` on a parsed integer (`0` is falsy). -/
def jsOr3 (v : Int) : Int := if v = 0 then 3 else v

/-- The effective `maxFiles` ceiling computed by `main`. -/
def effectiveMaxFiles : Option Int → Int
  | none => 3
  | some v => jsOr3 v

/-- `args.length > maxFiles`: does the invocation abort with the
"Too many files" error (exit code 1)? -/
def countErrorB (nFiles : Nat) (nFlag : Option Int) : Bool :=
  (nFiles : Int) > effectiveMaxFiles nFlag

/-- Outcome of the dispatch part of `main` in its default (edit) mode:
either the count error (exit 1 before any per-file processing), or the
`~/.xcs` shortcut that spawns the editor directly on the argument files
with no RCS handling at all, or a full checkout/edit/checkin session. -/
inductive MainOutcome where
  | countError
  | editorOnly (files : List (List Char))
  | session (files : List (List Char))
deriving DecidableEq

/-- `cwd.startsWith(XCS_ROOT + "/") || cwd === XCS_ROOT` (vic.js line 849). -/
def underXcs (xcsRoot cwd : List Char) : Bool :=
  (xcsRoot ++ ['/']).isPrefixOf cwd || cwd = xcsRoot

/-- Dispatch of `main` (default edit mode, vic.js lines 838-861): the file
count is checked once, before any per-file processing; then the `~/.xcs`
working-directory shortcut; otherwise the per-file checkout session runs. -/
def mainDispatch (nFlag : Option Int) (xcsRoot cwd : List Char)
    (files : List (List Char)) : MainOutcome :=
  if countErrorB files.length nFlag then .countError
  else if underXcs xcsRoot cwd then .editorOnly files
  else .session files

/-! ### Checkout session engine (`checkoutFile`, vic.js lines 486-566)

The portion of `checkoutFile` after the initial-checkin step is a straight
line of guarded aborts.  Its external inputs are gathered in `CheckoutEnv`:
the lock holder reported before checkout (`lname1`), the user's answer to
the force-unlock prompt, the `rcsdiff` exit code (`0` = working file clean
against the head revision), the user's answer at the drift prompt, the
`co -l` exit code, and the lock holder reported after checkout (`lname2`). -/

structure CheckoutEnv where
  lname1 : List Char
  unlockAnswer : List Char
  diffCode : Int
  driftAnswer : List Char
  coCode : Int
  lname2 : List Char
deriving DecidableEq

/-- `/y/i.test(ans)` (vic.js line 492). -/
def hasY (ans : List Char) : Bool :=
  ans.any (fun c => c = 'y' || c = 'Y')

/-- The three-way drift resolution of vic.js lines 517-529. -/
inductive DriftChoice where
  | commitDrift
  | abort
  | proceed
deriving DecidableEq

/-- Drift prompt dispatch: `/1/.test(ans)` selects the sync-commit option,
otherwise `!/3/.test(ans)` aborts with "No changes made", otherwise the
dangerous ignore-and-continue option is taken (vic.js lines 517-529). -/
def driftResolve (ans : List Char) : DriftChoice :=
  if ans.contains '1' then .commitDrift
  else if !ans.contains '3' then .abort
  else .proceed

/-- `if (lname)` — the lock-conflict report (vic.js line 488) is shown
exactly when the reported holder string is non-empty. -/
def conflictSurfaced (env : CheckoutEnv) : Bool :=
  env.lname1 ≠ []

/-- Result of one file's checkout attempt.  Every `aborted*` constructor
corresponds to a `return null` in `checkoutFile`; `null` means the file is
excluded from the batch handed to the editor. -/
inductive CoResult where
  | abortedLock
  | abortedDrift
  | abortedCheckout
  | abortedLockVerify
  | checkedOut
deriving DecidableEq

/-- The guarded-abort skeleton of `checkoutFile` (vic.js lines 486-566):
lock conflict declined → abort; drift detected and resolution is the abort
option → abort; `co -l` fails → abort; holder empty after a successful
checkout → abort ("Could not lock"); otherwise the file is checked out. -/
def checkoutStep (env : CheckoutEnv) : CoResult :=
  if env.lname1 ≠ [] ∧ ¬ hasY env.unlockAnswer then .abortedLock
  else if env.diffCode ≠ 0 ∧ driftResolve env.driftAnswer = .abort then .abortedDrift
  else if env.coCode ≠ 0 then .abortedCheckout
  else if env.lname2 = [] then .abortedLockVerify
  else .checkedOut

/-- `main` keeps exactly the files whose `checkoutFile` returned non-null
(vic.js lines 856-862); the others are excluded from the editor batch. -/
def batchCheckout (files : List (List Char × CheckoutEnv)) : List (List Char) :=
  (files.filter (fun p => checkoutStep p.2 = .checkedOut)).map (fun p => p.1)

/-! ### Store-location resolution (`resolveRcsPath`, vic.js lines 249-300)

External effects are passed in: `exOnDisk` is the `existsSync` oracle,
`answer` the user's reply at the "No RCS directory" prompt, `mkdirOk`
whether `mkdirSync` on the chosen path succeeds.  `localDir` is the
directory the store attaches to (the `.xcs` bundle root when one is found,
the file's own directory otherwise) and `xcsRootP` is `XCS_ROOT`
(`~/.xcs`).  The cached xattr hint is `xattrValue` (`none` = absent; the
reading helper `getXattrPath` returns `result.trim() || null`, so a present
value is never empty). -/

/-- `".rcs"` (the `RCS_DIR` constant). -/
def rcsDirName : List Char := ['.', 'r', 'c', 's']

/-- Full path a cached hint resolves to: `"."` means the local store
`<localDir>/.rcs`, anything else the remote store `<XCS_ROOT>/<hint>`
(vic.js lines 262-268). -/
def resolveHintPath (localDir xcsRootP v : List Char) : List Char :=
  if v = ['.'] then localDir ++ '/' :: rcsDirName
  else xcsRootP ++ '/' :: v

/-- `trimmed.replace(/^\/+/, "").replace(/\/+$/, "")` (vic.js line 245). -/
def stripSlashes (cs : List Char) : List Char :=
  ((cs.dropWhile (fun c => c = '/')).reverse.dropWhile (fun c => c = '/')).reverse

/-- `promptForRcsPath` (vic.js lines 233-247): empty or `"."` answer means
the local `.rcs` store, anything else a slash-stripped relative path under
`XCS_ROOT`.  Returns `(relative, full)`. -/
def promptForRcsPath (localDir xcsRootP answer : List Char) :
    List Char × List Char :=
  let t := jsTrim answer
  if t = [] ∨ t = ['.'] then (['.'], localDir ++ '/' :: rcsDirName)
  else
    let rel := stripSlashes t
    (rel, xcsRootP ++ '/' :: rel)

/-- What one call to `resolveRcsPath` did: whether the stale xattr hint was
removed (`removeXattr`), whether the interactive prompt ran, and the
returned store path (`none` models the `return null` on `mkdirSync`
failure). -/
structure ResolveOutcome where
  purged : Bool
  prompted : Bool
  result : Option (List Char)
deriving DecidableEq

/-- The prompt-and-create tail of `resolveRcsPath` (vic.js lines 279-299):
prompt, then create the directory when missing (fatal if creation fails),
then persist the hint. -/
def resolvePromptTail (localDir xcsRootP answer : List Char) (exOnDisk : List Char → Bool)
    (mkdirOk : Bool) (purged : Bool) : ResolveOutcome :=
  let info := promptForRcsPath localDir xcsRootP answer
  if ¬ exOnDisk info.2 ∧ ¬ mkdirOk then ⟨purged, true, none⟩
  else ⟨purged, true, some info.2⟩

/-- `resolveRcsPath` (vic.js lines 251-300): a present cached hint is
resolved and returned if its path exists on disk; otherwise the hint is
removed and resolution falls through to the prompt. -/
def resolveRcsPath (localDir xcsRootP : List Char) (xattrValue : Option (List Char))
    (exOnDisk : List Char → Bool) (answer : List Char) (mkdirOk : Bool) :
    ResolveOutcome :=
  match xattrValue with
  | some v =>
    if v = [] then
      -- JS truthiness: an empty hint behaves like an absent one
      -- (unreachable through getXattrPath, which never returns "")
      resolvePromptTail localDir xcsRootP answer exOnDisk mkdirOk false
    else
      let fullPath := resolveHintPath localDir xcsRootP v
      if exOnDisk fullPath then ⟨false, false, some fullPath⟩
      else resolvePromptTail localDir xcsRootP answer exOnDisk mkdirOk true
  | none => resolvePromptTail localDir xcsRootP answer exOnDisk mkdirOk false

/-- RCS path determination inside `checkoutFile` (vic.js lines 447-465):
a store root already existing immediately beside the file
(`<dirName>/.rcs`) is used directly; only otherwise is `resolveRcsPath`
(the xattr metadata machinery and its prompt) invoked.  The `Bool` of the
pair records whether `resolveRcsPath` ran. -/
def determineRcsPath (dirName localDir xcsRootP : List Char)
    (xattrValue : Option (List Char)) (exOnDisk : List Char → Bool)
    (answer : List Char) (mkdirOk : Bool) : Option (List Char) × Bool :=
  if exOnDisk (dirName ++ '/' :: rcsDirName) then
    (some (dirName ++ '/' :: rcsDirName), false)
  else
    ((resolveRcsPath localDir xcsRootP xattrValue exOnDisk answer mkdirOk).result,
      true)

/-! ### Commit-message generation (`generateCommitMessage`, vic.js 115-143)

The summarizer backend is the `claude` CLI: `claudeCli` says whether it was
found on `PATH`; `backend` is the observed `spawnSync` outcome — `none`
when the call threw, `some (status, out)` its exit status and standard
output.  A timeout surfaces as a non-zero (null) status, hence as
`status ≠ 0` here. -/

/-- The double-quote character (U+0022), which the sanitizer removes. -/
def quoteChar : Char := Char.ofNat 34

/-- The apostrophe character (U+0027), which replaces double quotes. -/
def aposChar : Char := Char.ofNat 39

/-- The sentinel commit message `"-"`. -/
def dashMsg : List Char := ['-']

/-- `result.stdout.trim().replace(/"/g, "'").replace(/\n/g, " ").substring(0, 200)`
(vic.js line 134). -/
def sanitizeMessage (out : List Char) : List Char :=
  ((((jsTrim out).map (fun c => if c = quoteChar then aposChar else c)).map
    (fun c => if c = '\n' then ' ' else c)).take 200)

/-- `generateCommitMessage` (vic.js lines 115-143). -/
def generateCommitMessage (claudeCli : Bool) (diff : List Char)
    (backend : Option (Int × List Char)) : List Char :=
  if ¬ claudeCli ∨ diff = [] ∨ jsTrim diff = [] then dashMsg
  else
    match backend with
    | none => dashMsg
    | some (status, out) =>
      if status = 0 ∧ out ≠ [] then
        let s := sanitizeMessage out
        if s = [] then dashMsg else s
      else dashMsg

/-- Message selection in `checkinFile` (vic.js lines 577-590): the
summarizer only runs when the diff content is non-blank, otherwise the
sentinel is used directly. -/
def checkinMessage (claudeCli : Bool) (diffContent : List Char)
    (backend : Option (Int × List Char)) : List Char :=
  if jsTrim diffContent ≠ [] then generateCommitMessage claudeCli diffContent backend
  else dashMsg

/-! ### Lock-holder query (`getLockersName`, vic.js lines 304-329)

`execSync("rlog ... | grep \"locked by:\"")` raises when the pipeline's
exit status (grep's) is non-zero, i.e. when no line of the rlog output
contains the pattern; the `catch` then returns `""`.  `rlogOk = false`
models a failing rlog invocation (missing or unreadable store entry),
which produces no output for grep to match. -/

/-- The grep pattern `"locked by:"`. -/
def lockedByPat : List Char := ['l', 'o', 'c', 'k', 'e', 'd', ' ', 'b', 'y', ':']

/-- The literal `"locked by: "` of the first `replace` regex. -/
def lockedBySp : List Char := lockedByPat ++ [' ']

/-- Suffix after the LAST occurrence of `pat` in `l` (`none` if absent);
models the greedy `.*` of `/.*locked by: /` within one line. -/
def lastOccurSuffix (pat : List Char) : List Char → Option (List Char)
  | [] => if pat.isPrefixOf ([] : List Char) then some [] else none
  | c :: rest =>
    match lastOccurSuffix pat rest with
    | some s => some s
    | none =>
      if pat.isPrefixOf (c :: rest) then some ((c :: rest).drop pat.length)
      else none

/-- `lname.replace(/.*locked by: /, "")` (vic.js line 322): `.` does not
cross newlines, so the first match lies within the first line holding the
pattern; for grep-filtered input that is the first line, modelled here
(a first line without the pattern leaves the string unchanged, as the
anchored search finds nothing there). -/
def replaceLockedBy (cs : List Char) : List Char :=
  let l1 := cs.takeWhile (fun c => c ≠ '\n')
  match lastOccurSuffix lockedBySp l1 with
  | some suf => suf ++ cs.drop l1.length
  | none => cs

/-- `lname.replace(/;.*/, "")` (vic.js line 323): everything from the first
`;` to the end of its line is removed. -/
def replaceSemi (cs : List Char) : List Char :=
  let pre := cs.takeWhile (fun c => c ≠ ';')
  if pre.length = cs.length then cs
  else pre ++ (cs.drop pre.length).dropWhile (fun c => c ≠ '\n')

/-- `getLockersName` (vic.js lines 304-329) as a function of the rlog
invocation's success and its output lines. -/
def getLockersName (rlogOk : Bool) (rlogLines : List (List Char)) : List Char :=
  let ls := if rlogOk then rlogLines else []
  let grepLines := ls.filter (fun l => containsSub lockedByPat l)
  if grepLines.isEmpty then []
  else replaceSemi (replaceLockedBy (jsTrim (List.intercalate ['\n'] grepLines)))

/-! ### History query (`showCommits`, vic.js lines 652-711)

The rlog output is modelled as its list of lines (`result.split("\n")`).
The parser is the line loop of vic.js lines 662-700, a fold over a small
state; `showCommits` prints `entries.reverse()` (oldest first, line 704). -/

/-- A parsed history entry (`{ rev, date, msg }`). -/
structure ParsedEntry where
  rev : List Char
  date : List Char
  msg : List Char
deriving DecidableEq

/-- Parser state: `inRevision`, `currentRev`, `currentDate`, `currentMsg`,
`entries` of vic.js lines 656-660. -/
structure LogState where
  inRevision : Bool
  currentRev : List Char
  currentDate : List Char
  currentMsg : List (List Char)
  entries : List ParsedEntry

/-- `"revision "`. -/
def revMark : List Char := ['r', 'e', 'v', 'i', 's', 'i', 'o', 'n', ' ']

/-- `"date: "`. -/
def dateMark : List Char := ['d', 'a', 't', 'e', ':', ' ']

/-- `"date:"` (the message-line exclusion uses the shorter form). -/
def dateMark5 : List Char := ['d', 'a', 't', 'e', ':']

/-- `"branches:"`. -/
def branchesMark : List Char := ['b', 'r', 'a', 'n', 'c', 'h', 'e', 's', ':']

/-- The 28-dash revision separator literal of vic.js line 680. -/
def sepMark : List Char := List.replicate 28 '-'

/-- `"==="` (log terminator test, vic.js line 690). -/
def eqMark : List Char := ['=', '=', '=']

/-- The 77-char `=` terminator line rlog actually emits. -/
def endLine : List Char := List.replicate 77 '='

/-- `currentMsg.join(" ")`. -/
def joinSpace (ms : List (List Char)) : List Char :=
  List.intercalate [' '] ms

/-- `entries.push({rev, date, msg})` guarded by
`if (currentRev && currentMsg.length)` (vic.js lines 665-667 etc.). -/
def pushEntry (s : LogState) : List ParsedEntry :=
  if s.currentRev ≠ [] ∧ s.currentMsg ≠ [] then
    s.entries ++ [⟨s.currentRev, s.currentDate, jsTrim (joinSpace s.currentMsg)⟩]
  else s.entries

/-- The capture of `line.match(/date: ([^;]+);/)` followed by `.trim()`,
for a line the enclosing branch has already checked to start with
`"date: "` (the regex `.` cannot cross newlines and its first match is the
prefix-anchored one). -/
def dateFromLine (line : List Char) : Option (List Char) :=
  let rest := line.drop dateMark.length
  let cap := rest.takeWhile (fun c => c ≠ ';')
  if cap ≠ [] ∧ cap.length < rest.length then some (jsTrim cap) else none

/-- One iteration of the line loop (vic.js lines 662-700). -/
def stepLine (s : LogState) (line : List Char) : LogState :=
  if revMark.isPrefixOf line then
    { inRevision := true
      currentRev := jsTrim (line.drop revMark.length)
      currentDate := s.currentDate
      currentMsg := []
      entries := pushEntry s }
  else if s.inRevision && dateMark.isPrefixOf line then
    match dateFromLine line with
    | some d => { s with currentDate := d }
    | none => s
  else if s.inRevision && sepMark.isPrefixOf line then
    { inRevision := false
      currentRev := []
      currentDate := s.currentDate
      currentMsg := []
      entries := pushEntry s }
  else if s.inRevision && eqMark.isPrefixOf line then
    { s with entries := pushEntry s }
  else if s.inRevision && !line.isEmpty && !dateMark5.isPrefixOf line
      && !branchesMark.isPrefixOf line then
    { s with currentMsg := s.currentMsg ++ [line] }
  else s

/-- Initial parser state (vic.js lines 656-660). -/
def initState : LogState := ⟨false, [], [], [], []⟩

/-- The entries accumulated by the loop, in the order they were pushed
(the backend's native newest-first order). -/
def parseLog (lines : List (List Char)) : List ParsedEntry :=
  (lines.foldl stepLine initState).entries

/-- The order in which `showCommits` prints the entries:
`entries.reverse()` (vic.js line 704), i.e. oldest first. -/
def displayedEntries (lines : List (List Char)) : List ParsedEntry :=
  (parseLog lines).reverse

/-! #### Well-formed rlog text

To quantify over "every backend log text containing N revisions" we render
log text from structured revision data in rlog's format and constrain the
fields with the obvious well-formedness conditions rlog output satisfies. -/

/-- One revision of the backend's log, in native (newest-first) position. -/
structure RevBlock where
  rev : List Char
  date : List Char
  author : List Char
  msgs : List (List Char)
deriving DecidableEq

/-- The part of a revision's date line after the first `;`. -/
def dateTail (b : RevBlock) : List Char :=
  (' ' :: ' ' :: "author: ".data) ++ b.author
    ++ (';' :: ' ' :: ' ' :: "state: Exp".data)

/-- The `date: <date>;  author: <author>;  state: Exp;` line of a revision. -/
def dateLineOf (b : RevBlock) : List Char :=
  dateMark ++ (b.date ++ ';' :: (dateTail b ++ [';']))

/-- The lines of one revision after its separator: the `revision` line, the
date line, then the message lines. -/
def bodyLines (b : RevBlock) : List (List Char) :=
  (revMark ++ b.rev) :: dateLineOf b :: b.msgs

/-- The lines rlog emits for one revision: separator, `revision` line,
date line, then the message lines. -/
def renderBlock (b : RevBlock) : List (List Char) :=
  sepMark :: bodyLines b

/-- A complete rlog text: header lines, the revision blocks newest first,
and the `=` terminator line. -/
def renderLog (hdr : List (List Char)) (blocks : List RevBlock) :
    List (List Char) :=
  hdr ++ (blocks.map renderBlock).flatten ++ [endLine]

/-- A message line of a well-formed log: non-empty and not mistakable for
any of the parser's markers. -/
def wfMsgLine (l : List Char) : Prop :=
  l ≠ [] ∧ revMark.isPrefixOf l = false ∧ dateMark5.isPrefixOf l = false
    ∧ branchesMark.isPrefixOf l = false ∧ sepMark.isPrefixOf l = false
    ∧ eqMark.isPrefixOf l = false

instance (l : List Char) : Decidable (wfMsgLine l) := by
  unfold wfMsgLine; infer_instance

/-- Well-formedness of one revision block: a non-blank revision id, a
non-blank date free of `;`, and at least one well-formed message line
(rlog prints `*** empty log message ***` when the message is empty, so a
revision always carries one). -/
def wfBlock (b : RevBlock) : Prop :=
  b.rev ≠ [] ∧ jsTrim b.rev = b.rev
    ∧ b.date ≠ [] ∧ jsTrim b.date = b.date ∧ ';' ∉ b.date
    ∧ b.msgs ≠ [] ∧ ∀ m ∈ b.msgs, wfMsgLine m

instance (b : RevBlock) : Decidable (wfBlock b) := by
  unfold wfBlock; infer_instance

/-- The entry the parser is expected to produce for one block. -/
def mkEntry (b : RevBlock) : ParsedEntry :=
  ⟨b.rev, b.date, jsTrim (joinSpace b.msgs)⟩

/-! ## Theorems -/

/-! ### C1 — batch-size ceiling -/

/-- C1 (counterexample): the claim "the invocation fails with a count error
iff N > C, for all N, C ≥ 0" is false at N = 1, C = 0: with `-n 0` the
JavaScript `parseInt(...) || 3` falls back to the default ceiling 3, so a
one-file invocation does not fail even though 1 > 0. -/
theorem c1_ceiling_zero_counterexample :
    countErrorB 1 (some 0) = false ∧ ((1 : Nat) : Int) > 0 := by decide

/-- C1 (amended): for every ceiling C ≥ 1 configured via `-n`, the
invocation fails with the count error iff N > C; a `-n` value of 0 (or an
absent/unparsable one) falls back to the default ceiling 3; and the count
error is exactly the `countError` outcome of `main`'s dispatch, produced
before any per-file processing. -/
theorem c1_count_ceiling (N : Nat) (C : Int) :
    (1 ≤ C → (countErrorB N (some C) = true ↔ (N : Int) > C))
    ∧ (countErrorB N (some 0) = true ↔ (N : Int) > 3)
    ∧ (countErrorB N none = true ↔ (N : Int) > 3)
    ∧ ∀ (nFlag : Option Int) (xcsRoot cwd : List Char) (files : List (List Char)),
        mainDispatch nFlag xcsRoot cwd files = .countError
          ↔ countErrorB files.length nFlag = true := by
  refine ⟨?_, ?_, ?_, ?_⟩
  · intro hC
    have : jsOr3 C = C := by simp [jsOr3]; omega
    simp [countErrorB, effectiveMaxFiles, this]
  · simp [countErrorB, effectiveMaxFiles, jsOr3]
  · simp [countErrorB, effectiveMaxFiles]
  · intro nFlag xcsRoot cwd files
    by_cases h : countErrorB files.length nFlag
    · simp [mainDispatch, h]
    · simp only [mainDispatch, h, if_false, Bool.false_eq_true]
      constructor
      · intro hcontra
        split at hcontra <;> simp_all
      · intro hcontra
        simp [h] at hcontra

/-- C1 witness: four files against the explicit ceiling 3 do produce the
count error. -/
theorem c1_count_ceiling_witness : countErrorB 4 (some 3) = true :=
  ((c1_count_ceiling 4 3).1 (by decide)).mpr (by decide)

/-! ### C2 — lock conflict -/

/-- C2 (counterexample): the claim predicts no conflict when the reported
holder equals the intended editor's identity, but `checkoutFile` surfaces
the conflict for any non-empty holder — it never compares the holder with
the invoking user.  With holder "alice" and intended editor "alice" the
conflict is surfaced although the claimed condition (non-empty AND
different) fails. -/
theorem c2_self_lock_counterexample :
    conflictSurfaced ⟨"alice".data, [], 0, [], 0, []⟩ = true
    ∧ ¬ ("alice".data ≠ ([] : List Char) ∧ "alice".data ≠ "alice".data) := by
  decide

/-- C2 (amended): the session surfaces the lock conflict iff the reported
holder is non-empty, regardless of whether it matches the intended
editor's identity; force-unlock is offered, and if the answer does not
confirm (no `y`/`Y`), the file's checkout is aborted. -/
theorem c2_conflict_iff_nonempty_holder (env : CheckoutEnv) :
    (conflictSurfaced env = true ↔ env.lname1 ≠ [])
    ∧ (env.lname1 ≠ [] → hasY env.unlockAnswer = false →
        checkoutStep env = .abortedLock) := by
  constructor
  · simp [conflictSurfaced]
  · intro h1 h2
    simp [checkoutStep, h1, h2]

/-- C2 witness: holder "alice", answer "n" — checkout aborts. -/
theorem c2_conflict_iff_nonempty_holder_witness :
    checkoutStep ⟨"alice".data, "n".data, 0, [], 0, []⟩ = .abortedLock :=
  (c2_conflict_iff_nonempty_holder _).2 (by decide) (by decide)

/-! ### C3 — empty holder after successful checkout -/

/-- C3: when the lock-conflict and drift gates pass, the backend checkout
command succeeds (`coCode = 0`) but the subsequent lock-holder query
returns the empty string, `checkoutFile` still fails ("Could not lock",
`return null`) and the file is excluded from the editor batch. -/
theorem c3_empty_holder_after_checkout (env : CheckoutEnv)
    (hlock : env.lname1 = [] ∨ hasY env.unlockAnswer = true)
    (hdrift : env.diffCode = 0 ∨ driftResolve env.driftAnswer ≠ .abort)
    (hco : env.coCode = 0) (hln : env.lname2 = []) :
    checkoutStep env = .abortedLockVerify
    ∧ ∀ fname, batchCheckout [(fname, env)] = [] := by
  have hstep : checkoutStep env = .abortedLockVerify := by
    rcases hlock with h | h <;> rcases hdrift with h' | h' <;>
      simp [checkoutStep, h, h', hco, hln]
  exact ⟨hstep, fun fname => by simp [batchCheckout, hstep]⟩

/-- C3 witness: clean file, no prior holder, successful checkout, empty
holder afterwards — the checkout is treated as failed. -/
theorem c3_empty_holder_after_checkout_witness :
    checkoutStep ⟨[], [], 0, [], 0, []⟩ = .abortedLockVerify :=
  (c3_empty_holder_after_checkout _ (Or.inl rfl) (Or.inl rfl) rfl rfl).1

/-! ### C4 — drift prompt default -/

/-- C4: at the drift prompt, any answer selecting neither the sync-commit
option (`/1/`) nor the dangerous proceed option (`/3/`) resolves to the
abort option, and the file's session is aborted with no changes made. -/
theorem c4_drift_default_aborts (env : CheckoutEnv)
    (hlock : env.lname1 = [] ∨ hasY env.unlockAnswer = true)
    (hdrift : env.diffCode ≠ 0)
    (h1 : env.driftAnswer.contains '1' = false)
    (h3 : env.driftAnswer.contains '3' = false) :
    driftResolve env.driftAnswer = .abort ∧ checkoutStep env = .abortedDrift := by
  have h1m : '1' ∉ env.driftAnswer := by simpa using h1
  have h3m : '3' ∉ env.driftAnswer := by simpa using h3
  have hres : driftResolve env.driftAnswer = .abort := by
    simp [driftResolve, h1m, h3m]
  refine ⟨hres, ?_⟩
  rcases hlock with h | h <;> simp [checkoutStep, h, hdrift, hres]

/-- C4 witness: answer "2" at the drift prompt aborts the session. -/
theorem c4_drift_default_aborts_witness :
    checkoutStep ⟨[], [], 1, "2".data, 0, []⟩ = .abortedDrift :=
  (c4_drift_default_aborts _ (Or.inl rfl) (by decide) (by decide) (by decide)).2

/-! ### C5 — stale metadata hint -/

/-- C5: when a cached hint is present (non-empty) but the store path it
resolves to does not exist on disk, `resolveRcsPath` removes the xattr,
falls back to the interactive prompt, and any path it returns is the one
derived from the prompt answer — the stale hint's path is never returned
without re-prompting. -/
theorem c5_stale_hint_purged (localDir xcsRootP v answer : List Char)
    (exOnDisk : List Char → Bool) (mkdirOk : Bool) (hv : v ≠ [])
    (hstale : exOnDisk (resolveHintPath localDir xcsRootP v) = false) :
    (resolveRcsPath localDir xcsRootP (some v) exOnDisk answer mkdirOk).purged = true
    ∧ (resolveRcsPath localDir xcsRootP (some v) exOnDisk answer mkdirOk).prompted = true
    ∧ ∀ p, (resolveRcsPath localDir xcsRootP (some v) exOnDisk answer mkdirOk).result = some p →
        p = (promptForRcsPath localDir xcsRootP answer).2 := by
  simp only [resolveRcsPath, hv, if_neg, hstale, Bool.false_eq_true, if_false,
    resolvePromptTail]
  split
  · simp
  · simp

/-- C5 witness: a stale hint with every path reported missing and a
successful directory creation — the hint is purged, the prompt runs. -/
theorem c5_stale_hint_purged_witness :
    (resolveRcsPath ['d'] ['x'] (some ['h']) (fun _ => false) [] true).purged = true
    ∧ (resolveRcsPath ['d'] ['x'] (some ['h']) (fun _ => false) [] true).prompted = true :=
  ⟨(c5_stale_hint_purged ['d'] ['x'] ['h'] [] (fun _ => false) true (by decide) rfl).1,
    (c5_stale_hint_purged ['d'] ['x'] ['h'] [] (fun _ => false) true (by decide) rfl).2.1⟩

/-! ### C6 — commit-message sanitization -/

/-- The double-quote character never survives `sanitizeMessage`: the first
`replace` maps every `"` to `'` and the second introduces only spaces. -/
theorem quoteChar_not_mem_sanitizeMessage (out : List Char) :
    quoteChar ∉ sanitizeMessage out := by
  intro hmem
  have h1 := List.mem_of_mem_take hmem
  rcases List.mem_map.mp h1 with ⟨a, ha, hfa⟩
  by_cases h : a = '\n'
  · rw [if_pos h] at hfa
    exact absurd hfa (by decide)
  · rw [if_neg h] at hfa
    subst hfa
    rcases List.mem_map.mp ha with ⟨b, hb, hfb⟩
    by_cases h2 : b = quoteChar
    · rw [if_pos h2] at hfb
      exact absurd hfb (by decide)
    · rw [if_neg h2] at hfb
      exact h2 hfb

/-- The newline character never survives `sanitizeMessage`: the second
`replace` maps every `\n` to a space. -/
theorem newline_not_mem_sanitizeMessage (out : List Char) :
    '\n' ∉ sanitizeMessage out := by
  intro hmem
  have h1 := List.mem_of_mem_take hmem
  rcases List.mem_map.mp h1 with ⟨a, _, hfa⟩
  by_cases h : a = '\n'
  · rw [if_pos h] at hfa
    exact absurd hfa (by decide)
  · rw [if_neg h] at hfa
    exact h hfa

/-- `substring(0, 200)` caps the sanitized message at 200 characters. -/
theorem sanitizeMessage_length (out : List Char) :
    (sanitizeMessage out).length ≤ 200 := by
  unfold sanitizeMessage
  simp [List.length_take]

/-- C6: the commit message produced by `generateCommitMessage` never
contains a double quote or a newline and never exceeds 200 characters; an
empty or whitespace-only diff, an unavailable backend CLI, a throwing
invocation, or a non-zero (erroring/timed-out) backend status each yield
exactly the sentinel `"-"`; and the message `checkinFile` passes to `ci`
is either that provider output or the sentinel itself. -/
theorem c6_commit_message_sanitized (claudeCli : Bool) (diff : List Char)
    (backend : Option (Int × List Char)) :
    (quoteChar ∉ generateCommitMessage claudeCli diff backend
      ∧ '\n' ∉ generateCommitMessage claudeCli diff backend
      ∧ (generateCommitMessage claudeCli diff backend).length ≤ 200)
    ∧ (jsTrim diff = [] → generateCommitMessage claudeCli diff backend = dashMsg)
    ∧ (claudeCli = false → generateCommitMessage claudeCli diff backend = dashMsg)
    ∧ (backend = none → generateCommitMessage claudeCli diff backend = dashMsg)
    ∧ (∀ st out, backend = some (st, out) → st ≠ 0 →
        generateCommitMessage claudeCli diff backend = dashMsg)
    ∧ (checkinMessage claudeCli diff backend = dashMsg
        ∨ checkinMessage claudeCli diff backend
            = generateCommitMessage claudeCli diff backend) := by
  have hcases : generateCommitMessage claudeCli diff backend = dashMsg
      ∨ ∃ out, generateCommitMessage claudeCli diff backend = sanitizeMessage out := by
    unfold generateCommitMessage
    split
    · exact Or.inl rfl
    · rcases backend with _ | ⟨st, out⟩
      · exact Or.inl rfl
      · dsimp only
        split
        · split
          · exact Or.inl rfl
          · exact Or.inr ⟨out, rfl⟩
        · exact Or.inl rfl
  refine ⟨?_, ?_, ?_, ?_, ?_, ?_⟩
  · rcases hcases with h | ⟨out, h⟩ <;> rw [h]
    · exact ⟨by decide, by decide, by decide⟩
    · exact ⟨quoteChar_not_mem_sanitizeMessage out, newline_not_mem_sanitizeMessage out,
        sanitizeMessage_length out⟩
  · intro h
    unfold generateCommitMessage
    rw [if_pos (Or.inr (Or.inr h))]
  · intro h
    subst h
    unfold generateCommitMessage
    rw [if_pos (Or.inl (by simp))]
  · intro h
    subst h
    unfold generateCommitMessage
    split
    · rfl
    · rfl
  · intro st out h hst
    subst h
    unfold generateCommitMessage
    split
    · rfl
    · dsimp only
      rw [if_neg (fun hc => hst hc.1)]
  · unfold checkinMessage
    split
    · exact Or.inr rfl
    · exact Or.inl rfl

/-- C6 witness: a non-empty diff with an erroring backend (exit status 1)
yields the sentinel. -/
theorem c6_commit_message_sanitized_witness :
    generateCommitMessage true ['d'] (some (1, ['x'])) = dashMsg :=
  (c6_commit_message_sanitized true ['d'] (some (1, ['x']))).2.2.2.2.1
    1 ['x'] rfl (by decide)

/-! ### C7 — local store priority -/

/-- C7: when a `.rcs` store root already exists beside the file,
`checkoutFile` uses exactly that path and `resolveRcsPath` — the only code
that reads, writes, removes or prompts for directory metadata — is never
invoked, regardless of any cached remote hint. -/
theorem c7_local_store_priority (dirName localDir xcsRootP : List Char)
    (xattrValue : Option (List Char)) (exOnDisk : List Char → Bool)
    (answer : List Char) (mkdirOk : Bool)
    (hlocal : exOnDisk (dirName ++ '/' :: rcsDirName) = true) :
    determineRcsPath dirName localDir xcsRootP xattrValue exOnDisk answer mkdirOk
      = (some (dirName ++ '/' :: rcsDirName), false) := by
  simp [determineRcsPath, hlocal]

/-- C7 witness: local `.rcs` present together with a cached remote hint —
the local root wins and metadata is not consulted. -/
theorem c7_local_store_priority_witness :
    determineRcsPath ['d'] ['d'] ['x'] (some ['r']) (fun _ => true) [] true
      = (some (['d'] ++ '/' :: rcsDirName), false) :=
  c7_local_store_priority ['d'] ['d'] ['x'] (some ['r']) (fun _ => true) [] true rfl

/-! ### C8 — history parsing and ordering

Helper lemmas about the line parser of `showCommits`, then the claim: a
well-formed rlog text with N revisions in native newest-first order parses
to exactly N entries and is displayed oldest first. -/

/-- A list is a prefix of itself followed by anything. -/
theorem isPrefixOf_append_self (p r : List Char) : p.isPrefixOf (p ++ r) = true := by
  induction p with
  | nil => simp [List.isPrefixOf]
  | cons a t ih => simp [List.isPrefixOf, ih]

/-- A line that does not start with `"date:"` does not start with
`"date: "` either. -/
theorem dateMark_isPrefixOf_false (l : List Char) (h : dateMark5.isPrefixOf l = false) :
    dateMark.isPrefixOf l = false := by
  rw [← Bool.not_eq_true] at h ⊢
  intro hc
  apply h
  rw [ List.isPrefixOf_iff_prefix] at hc ⊢
  exact List.IsPrefix.trans ⟨[' '], rfl⟩ hc

/-- `"revision "` is not a prefix of a line starting with `"date: "`. -/
theorem revMark_not_prefix_dateline (x : List Char) :
    revMark.isPrefixOf (dateMark ++ x) = false := by
  simp [revMark, dateMark, List.isPrefixOf]

/-- With `inRevision` false, any line not starting with `"revision "` is
ignored by the parser loop. -/
theorem stepLine_skip (s : LogState) (l : List Char) (hs : s.inRevision = false)
    (hl : revMark.isPrefixOf l = false) : stepLine s l = s := by
  simp [stepLine, hs, hl]

/-- Folding the parser over header lines (none starting with
`"revision "`) from a not-in-revision state does nothing. -/
theorem foldl_stepLine_skip (ls : List (List Char)) (s : LogState)
    (hs : s.inRevision = false) (h : ∀ l ∈ ls, revMark.isPrefixOf l = false) :
    ls.foldl stepLine s = s := by
  induction ls with
  | nil => rfl
  | cons a t ih =>
    rw [List.foldl_cons, stepLine_skip s a hs (h a (by simp))]
    exact ih (fun l hl => h l (by simp [hl]))

/-- Effect of a `revision` line: push any pending entry, set the current
revision id, clear the message accumulator. -/
theorem stepLine_rev (s : LogState) (r : List Char) :
    stepLine s (revMark ++ r) = ⟨true, jsTrim r, s.currentDate, [], pushEntry s⟩ := by
  simp [stepLine, isPrefixOf_append_self, List.drop_left]

/-- `takeWhile (≠ ';')` of a `;`-free list followed by `;` returns that
list. -/
theorem takeWhile_append_semi (xs tl : List Char) (h : ';' ∉ xs) :
    (xs ++ ';' :: tl).takeWhile (fun c => c ≠ ';') = xs := by
  induction xs with
  | nil => simp [List.takeWhile]
  | cons a t ih =>
    have ha : a ≠ ';' := fun hc => h (hc ▸ List.mem_cons_self a t)
    simp only [List.cons_append, List.takeWhile_cons]
    rw [if_pos (by simp [ha]), ih (fun hm => h (List.mem_cons_of_mem a hm))]

/-- Effect of a well-formed date line: only `currentDate` changes, to the
trimmed regex capture, which is the block's date field. -/
theorem stepLine_dateLine (b : RevBlock) (rv dt : List Char)
    (cm : List (List Char)) (es : List ParsedEntry)
    (hd1 : b.date ≠ []) (hd2 : jsTrim b.date = b.date) (hd3 : ';' ∉ b.date) :
    stepLine ⟨true, rv, dt, cm, es⟩ (dateLineOf b) = ⟨true, rv, b.date, cm, es⟩ := by
  have hrest : (dateLineOf b).drop dateMark.length
      = b.date ++ ';' :: (dateTail b ++ [';']) := by
    unfold dateLineOf
    exact List.drop_left _ _
  have hdate : dateFromLine (dateLineOf b) = some b.date := by
    simp only [dateFromLine]
    rw [hrest, takeWhile_append_semi _ _ hd3]
    rw [if_pos ⟨hd1, by simp⟩, hd2]
  have hrev : revMark.isPrefixOf (dateLineOf b) = false := by
    unfold dateLineOf
    exact revMark_not_prefix_dateline _
  have hdm : dateMark.isPrefixOf (dateLineOf b) = true := by
    unfold dateLineOf
    exact isPrefixOf_append_self _ _
  simp [stepLine, hrev, hdm, hdate]

/-- Effect of a well-formed message line: it is appended to the message
accumulator. -/
theorem stepLine_msg (m : List Char) (hm : wfMsgLine m) (rv dt : List Char)
    (cm : List (List Char)) (es : List ParsedEntry) :
    stepLine ⟨true, rv, dt, cm, es⟩ m = ⟨true, rv, dt, cm ++ [m], es⟩ := by
  obtain ⟨h0, h1, h2, h3, h4, h5⟩ := hm
  have hdm : dateMark.isPrefixOf m = false := dateMark_isPrefixOf_false m h2
  have hne : m.isEmpty = false := by simp [List.isEmpty_iff, h0]
  simp [stepLine, h1, h2, h3, h4, h5, hdm, hne]

/-- Folding the parser over well-formed message lines appends them all. -/
theorem foldl_stepLine_msgs (ms : List (List Char)) :
    ∀ (rv dt : List Char) (cm : List (List Char)) (es : List ParsedEntry),
      (∀ m ∈ ms, wfMsgLine m) →
      ms.foldl stepLine ⟨true, rv, dt, cm, es⟩ = ⟨true, rv, dt, cm ++ ms, es⟩ := by
  induction ms with
  | nil =>
    intro rv dt cm es _
    simp
  | cons m t ih =>
    intro rv dt cm es h
    rw [List.foldl_cons, stepLine_msg m (h m (by simp))]
    rw [ih rv dt (cm ++ [m]) es (fun x hx => h x (by simp [hx]))]
    simp

/-- Folding the parser over one revision's body (revision line, date line,
messages) from a state with no pending revision ends in the expected
mid-block state. -/
theorem foldl_stepLine_body (b : RevBlock) (hb : wfBlock b) (ir : Bool)
    (dt : List Char) (cm : List (List Char)) (es : List ParsedEntry) :
    (bodyLines b).foldl stepLine ⟨ir, [], dt, cm, es⟩
      = ⟨true, b.rev, b.date, b.msgs, es⟩ := by
  obtain ⟨hr1, hr2, hd1, hd2, hd3, hm1, hm2⟩ := hb
  have hpush : pushEntry ⟨ir, [], dt, cm, es⟩ = es := by simp [pushEntry]
  simp only [bodyLines, List.foldl_cons]
  rw [stepLine_rev, hpush, hr2]
  dsimp only
  rw [stepLine_dateLine b b.rev dt [] es hd1 hd2 hd3]
  rw [foldl_stepLine_msgs b.msgs b.rev b.date [] es hm2]
  simp

/-- Folding the parser over the remaining blocks and the terminator from a
mid-block state accumulates exactly one entry per block, in order. -/
theorem foldl_stepLine_tail (bs : List RevBlock) :
    ∀ (b : RevBlock) (acc : List ParsedEntry), (∀ x ∈ bs, wfBlock x) → wfBlock b →
      (((bs.map renderBlock).flatten ++ [endLine]).foldl stepLine
          ⟨true, b.rev, b.date, b.msgs, acc⟩).entries
        = acc ++ mkEntry b :: bs.map mkEntry := by
  induction bs with
  | nil =>
    intro b acc _ hb
    obtain ⟨hr1, hr2, hd1, hd2, hd3, hm1, hm2⟩ := hb
    have h1 : ¬ (revMark <+: endLine) := by decide
    have h2 : ¬ (dateMark <+: endLine) := by decide
    have h3 : ¬ (sepMark <+: endLine) := by decide
    have h4 : eqMark <+: endLine := by decide
    simp only [List.map_nil, List.flatten_nil, List.nil_append, List.foldl_cons,
      List.foldl_nil]
    simp [stepLine, h1, h2, h3, h4, pushEntry, hr1, hm1, mkEntry]
  | cons b' t ih =>
    intro b acc hbs hb
    obtain ⟨hr1, hr2, hd1, hd2, hd3, hm1, hm2⟩ := hb
    have hsep : stepLine ⟨true, b.rev, b.date, b.msgs, acc⟩ sepMark
        = ⟨false, [], b.date, [], acc ++ [mkEntry b]⟩ := by
      have h1 : ¬ (revMark <+: sepMark) := by decide
      have h2 : ¬ (dateMark <+: sepMark) := by decide
      have h3 : sepMark <+: sepMark := List.prefix_refl _
      simp [stepLine, h1, h2, h3, pushEntry, hr1, hm1, mkEntry]
    simp only [List.map_cons, List.flatten_cons]
    rw [List.append_assoc]
    simp only [renderBlock, List.cons_append, List.foldl_cons]
    rw [hsep, List.foldl_append]
    rw [foldl_stepLine_body b' (hbs b' (by simp))]
    rw [ih b' (acc ++ [mkEntry b]) (fun x hx => hbs x (by simp [hx])) (hbs b' (by simp))]
    simp

/-- C8: a well-formed rlog text with the revisions `bs` in the backend's
native newest-first order parses to exactly one entry per revision, in
native order, and `showCommits` displays the reversed — oldest-first —
sequence of exactly `bs.length` entries. -/
theorem c8_history_oldest_first (hdr : List (List Char)) (bs : List RevBlock)
    (hhdr : ∀ l ∈ hdr, revMark.isPrefixOf l = false)
    (hwf : ∀ b ∈ bs, wfBlock b) :
    parseLog (renderLog hdr bs) = bs.map mkEntry
    ∧ displayedEntries (renderLog hdr bs) = (bs.map mkEntry).reverse
    ∧ (displayedEntries (renderLog hdr bs)).length = bs.length := by
  have hparse : parseLog (renderLog hdr bs) = bs.map mkEntry := by
    unfold parseLog renderLog
    rw [List.foldl_append, List.foldl_append]
    rw [foldl_stepLine_skip hdr initState rfl hhdr]
    rw [← List.foldl_append]
    cases bs with
    | nil =>
      simp only [List.map_nil, List.flatten_nil, List.nil_append, List.foldl_cons,
        List.foldl_nil]
      rw [stepLine_skip initState endLine rfl (by decide)]
      rfl
    | cons b t =>
      simp only [List.map_cons, List.flatten_cons]
      rw [List.append_assoc]
      simp only [renderBlock, List.cons_append, List.foldl_cons]
      rw [stepLine_skip initState sepMark rfl (by decide)]
      rw [List.foldl_append]
      rw [show initState = (⟨false, [], [], [], []⟩ : LogState) from rfl]
      rw [foldl_stepLine_body b (hwf b (by simp))]
      rw [foldl_stepLine_tail t b [] (fun x hx => hwf x (by simp [hx])) (hwf b (by simp))]
      simp
  exact ⟨hparse, by simp [displayedEntries, hparse],
    by simp [displayedEntries, hparse]⟩

/-- C8 witness: a three-revision log in native newest-first order
(`1.3, 1.2, 1.1`) is displayed as exactly three entries ordered
`1.1, 1.2, 1.3`. -/
theorem c8_history_oldest_first_witness :
    displayedEntries (renderLog ["head: 1.3".data]
        [⟨"1.3".data, "d3".data, "u".data, ["m3".data]⟩,
          ⟨"1.2".data, "d2".data, "u".data, ["m2".data]⟩,
          ⟨"1.1".data, "d1".data, "u".data, ["m1".data]⟩])
      = [⟨"1.1".data, "d1".data, "m1".data⟩, ⟨"1.2".data, "d2".data, "m2".data⟩,
          ⟨"1.3".data, "d3".data, "m3".data⟩] := by
  have h := c8_history_oldest_first ["head: 1.3".data]
    [⟨"1.3".data, "d3".data, "u".data, ["m3".data]⟩,
      ⟨"1.2".data, "d2".data, "u".data, ["m2".data]⟩,
      ⟨"1.1".data, "d1".data, "u".data, ["m1".data]⟩]
    (by decide) (by decide)
  rw [h.2.1]
  decide

/-! ### C9 — ~/.xcs working-directory shortcut -/

/-- C9 (counterexample): the claim has no file-count proviso, but the count
check runs before the `~/.xcs` shortcut: four files with the default
ceiling from a working directory equal to the store base produce the count
error, not a direct editor spawn. -/
theorem c9_count_precedes_counterexample :
    mainDispatch none ['x'] ['x'] [['a'], ['b'], ['c'], ['d']] = .countError
    ∧ underXcs ['x'] ['x'] = true := by decide

/-- C9 (amended): provided the invocation passes the file-count check, a
working directory equal to the remote store base or beneath it makes
`main` spawn the editor directly on the argument files (`editorOnly`) —
no store resolution, initial checkin, lock handling, drift detection or
checkin occurs (those live only in the `session` arm). -/
theorem c9_xcs_editor_only (nFlag : Option Int) (xcsRoot cwd : List Char)
    (files : List (List Char))
    (hcount : countErrorB files.length nFlag = false)
    (hcwd : underXcs xcsRoot cwd = true) :
    mainDispatch nFlag xcsRoot cwd files = .editorOnly files := by
  simp [mainDispatch, hcount, hcwd]

/-- C9 witness: one file from a directory beneath `~/.xcs`. -/
theorem c9_xcs_editor_only_witness :
    mainDispatch none ['x'] ['x', '/', 's'] [['a']] = .editorOnly [['a']] :=
  c9_xcs_editor_only none ['x'] ['x', '/', 's'] [['a']] (by decide) (by decide)

/-! ### C10 — holder query failure modes -/

/-- C10: the lock-holder query returns the empty string (unlocked) whenever
the rlog invocation fails or its output contains no "locked by:" token —
a missing or unreadable store entry is indistinguishable from an unlocked
file. -/
theorem c10_empty_holder_on_failure (rlogOk : Bool) (rlogLines : List (List Char))
    (h : rlogOk = false ∨ ∀ l ∈ rlogLines, containsSub lockedByPat l = false) :
    getLockersName rlogOk rlogLines = [] := by
  rcases h with h | h
  · simp [getLockersName, h]
  · cases rlogOk with
    | false => simp [getLockersName]
    | true =>
      have : rlogLines.filter (fun l => containsSub lockedByPat l) = [] :=
        List.filter_eq_nil_iff.mpr (fun l hl => by simp [h l hl])
      simp [getLockersName, this]

/-- C10 witness: a failing rlog invocation reports an unlocked file. -/
theorem c10_empty_holder_on_failure_witness :
    getLockersName false [lockedByPat] = [] :=
  c10_empty_holder_on_failure false [lockedByPat] (Or.inl rfl)

/-! ### Concrete evaluations of the embedding

Sanity evaluations of the embedded functions on realistic inputs, tying
the model to observable behaviour of the program. -/

/-- On a realistic rlog output line the holder extraction yields the
locking user's name. -/
theorem getLockersName_extracts_name :
    getLockersName true ["locks: strict".data, "\tlocked by: casey; strict".data]
      = "casey".data := by decide

/-- The sanitizer trims, collapses newlines to spaces and keeps the rest. -/
theorem sanitizeMessage_example :
    sanitizeMessage "  ok\nfine  ".data = "ok fine".data := by decide

/-- A successful backend whose output trims to nothing still yields the
sentinel. -/
theorem generateCommitMessage_blank_output :
    generateCommitMessage true "diff".data (some (0, "  ".data)) = dashMsg := by decide

/-- Multi-line commit messages of one revision are joined with spaces. -/
theorem displayedEntries_joins_message_lines :
    displayedEntries (renderLog ["RCS file: x".data, "head: 1.2".data]
      [⟨"1.2".data, "d2".data, "u".data, ["m2a".data, "m2b".data]⟩,
        ⟨"1.1".data, "d1".data, "u".data, ["m1".data]⟩])
      = [⟨"1.1".data, "d1".data, "m1".data⟩,
          ⟨"1.2".data, "d2".data, "m2a m2b".data⟩] := by decide

end Vic
